import Mathlib

/-!
# go-make-utils: the `config-tool ensure` reconciler

A shallow embedding of `main.go` (package `main`) and the properties of its
specification.

Conventions of the embedding.

* Go strings are Lean strings; every string operation works on the list of
  code points (`String.data`), so all definitions evaluate by unfolding.
* A value of type `any` that came out of `encoding/json` is a `JVal`; the nil
  interface is `JVal.null` (that is what JSON `null` decodes to).  Numbers are
  `float64`, carried by their IEEE-754 bit pattern.
* `map[string]any` is a `GoMap`: `none` is the nil map, `some d` a map whose
  entries are the association list `d`.  `range` visits the entries in list
  order; Go leaves the order unspecified, and every theorem below is stated for
  an arbitrary list, that is, for an arbitrary visiting order.
* The standard library is not part of the repository.  What the program takes
  from it (`os.ReadFile`, `os.WriteFile`, `json.Unmarshal`,
  `json.MarshalIndent`, `filepath.Join`, the Unicode upper-case table and the
  `%v` verb of `fmt`) is a parameter `Lib` of every definition; general theorems
  hold for every `Lib`.  `sampleLib` is one concrete instance, used to evaluate
  runs on concrete inputs.
* Standard input is the list of strings that the successive
  `ReadString('\n')` calls return (each prompt builds its own reader); an
  exhausted list is end of file, where `ReadString` returns `""` and an error
  that the program ignores.
* `World.prompts` is a ghost trace: the keys `promptForValue` was called with.
-/

namespace GoMakeUtils

/-! ## Data model -/

/-- A decoded JSON value, as `encoding/json` stores it in an `any`. -/
inductive JVal where
  | null
  | bool (b : Bool)
  | num (bits : Nat)
  | str (s : String)
  | arr (xs : List JVal)
  | obj (kvs : List (String × JVal))

/-- The entries of a non-nil `map[string]any`. -/
abbrev Doc := List (String × JVal)

/-- A `map[string]any`; `none` is the nil map. -/
abbrev GoMap := Option Doc

/-- The test `v != nil` on an `any`. -/
def JVal.isNil : JVal → Bool
  | .null => true
  | _ => false

/-- The type assertion `v.(string)`. -/
def JVal.asString : JVal → Option String
  | .str s => some s
  | _ => none

/-- The entries `range m` visits, in visiting order. -/
def mapEntries : GoMap → Doc
  | none => []
  | some d => d

/-- The keys `range m` visits, in visiting order. -/
def mapKeys (m : GoMap) : List String :=
  (mapEntries m).map Prod.fst

/-- Lookup in the entries of a map. -/
def docGet : Doc → String → Option JVal
  | [], _ => none
  | (k, v) :: rest, key => if k = key then some v else docGet rest key

/-- The two-result index `v, exists := m[key]`: `none` when the key is absent. -/
def mapGet (m : GoMap) (key : String) : Option JVal :=
  docGet (mapEntries m) key

/-- The one-result index `m[key]`: the zero value (nil) when the key is absent. -/
def mapIndex (m : GoMap) (key : String) : JVal :=
  (mapGet m key).getD JVal.null

/-- Overwrite the entry of `key`, or add one. -/
def docSet : Doc → String → JVal → Doc
  | [], key, v => [(key, v)]
  | (k, x) :: rest, key, v =>
    if k = key then (k, v) :: rest else (k, x) :: docSet rest key v

/-- The statement `m[key] = v`; `none` is the run-time panic
`assignment to entry in nil map`. -/
def mapAssign (m : GoMap) (key : String) (v : JVal) : Option GoMap :=
  match m with
  | none => none
  | some d => some (some (docSet d key v))

/-- The statement `delete(m, key)`; a no-op on the nil map. -/
def mapDelete (m : GoMap) (key : String) : GoMap :=
  match m with
  | none => none
  | some d => some (d.filter (fun e => !decide (e.1 = key)))

/-! ## Strings -/

/-- The predicate `unicode.IsSpace`. -/
def isSpace (c : Char) : Bool :=
  let n := c.toNat
  n == 0x09 || n == 0x0A || n == 0x0B || n == 0x0C || n == 0x0D || n == 0x20
    || n == 0x85 || n == 0xA0 || n == 0x1680 || (0x2000 ≤ n && n ≤ 0x200A)
    || n == 0x2028 || n == 0x2029 || n == 0x202F || n == 0x205F || n == 0x3000

/-- The function `strings.TrimSpace`. -/
def TrimSpace (s : String) : String :=
  ⟨((s.data.dropWhile isSpace).reverse.dropWhile isSpace).reverse⟩

/-- Whether `p` starts the list `s`. -/
def startsWith : List Char → List Char → Bool
  | [], _ => true
  | _ :: _, [] => false
  | p :: ps, c :: cs => p == c && startsWith ps cs

/-- Replacement of a non-empty `old`, left to right, non-overlapping: `skip`
counts the characters of a match that are still to be passed over. -/
def replaceScan (old new : List Char) : Nat → List Char → List Char
  | _, [] => []
  | skip + 1, _ :: cs => replaceScan old new skip cs
  | 0, c :: cs =>
    if startsWith old (c :: cs) then new ++ replaceScan old new (old.length - 1) cs
    else c :: replaceScan old new 0 cs

/-- The function `strings.ReplaceAll`.  An empty `old` matches before every
code point and at the end. -/
def ReplaceAll (s old new : String) : String :=
  if old = new then s
  else if old.data = [] then ⟨new.data ++ s.data.flatMap (fun c => c :: new.data)⟩
  else ⟨replaceScan old.data new.data 0 s.data⟩

/-- The function `strings.Join`. -/
def stringsJoin : List String → String → String
  | [], _ => ""
  | [a], _ => a
  | a :: b :: rest, sep => a ++ sep ++ stringsJoin (b :: rest) sep

/-! ## The standard library and the world -/

/-- What the program takes from the standard library, over a file-system state
`FS`.  Errors are carried by their messages. -/
structure Lib (FS : Type) where
  /-- The call `os.ReadFile(path)`. -/
  ReadFile : FS → String → Except String String
  /-- The call `os.WriteFile(path, data, 0o644)`: the new state and the error. -/
  WriteFile : FS → String → String → FS × Option String
  /-- The call `json.Unmarshal(data, &result)` with `result` a nil
  `map[string]any`. -/
  Unmarshal : String → Except String GoMap
  /-- The call `json.MarshalIndent(data, "", "  ")`. -/
  MarshalIndent : GoMap → Except String String
  /-- The call `filepath.Join(a, b)`. -/
  Join : String → String → String
  /-- The table lookup `unicode.To(unicode.UpperCase, r)`, used above ASCII. -/
  upperTable : Char → Char
  /-- The call `fmt.Sprintf("%v", v)`. -/
  Sprintv : JVal → String

/-- The state a run works on. -/
structure World (FS : Type) where
  fs : FS
  stdin : List String
  stdout : List String
  stderr : List String
  prompts : List String

variable {FS : Type}

/-- Write `s` to standard output. -/
def World.print (w : World FS) (s : String) : World FS :=
  { w with stdout := w.stdout ++ [s] }

/-- Write `s` to standard error. -/
def World.eprint (w : World FS) (s : String) : World FS :=
  { w with stderr := w.stderr ++ [s] }

/-- The call `reader.ReadString('\n')` on a fresh reader of standard input,
its error dropped. -/
def World.readString (w : World FS) : String × World FS :=
  match w.stdin with
  | [] => ("", w)
  | s :: rest => (s, { w with stdin := rest })

/-- The function `unicode.ToUpper`. -/
def unicodeToUpper (lib : Lib FS) (c : Char) : Char :=
  if c.toNat ≤ 0x7F then
    if 'a'.toNat ≤ c.toNat ∧ c.toNat ≤ 'z'.toNat then Char.ofNat (c.toNat - 32) else c
  else lib.upperTable c

/-- The function `strings.ToUpper`. -/
def ToUpper (lib : Lib FS) (s : String) : String :=
  ⟨s.data.map (unicodeToUpper lib)⟩

/-! ## The program -/

def templateFile : String := "local-config.template.json"

def configFile : String := "local-config.json"

def envFile : String := ".env.mk"

/-- The function `loadJSON`. -/
def loadJSON (lib : Lib FS) (fs : FS) (path : String) : Except String GoMap :=
  match lib.ReadFile fs path with
  | .error err => .error err
  | .ok data =>
    match lib.Unmarshal data with
    | .error err => .error err
    | .ok result => .ok result

/-- The function `loadJSONOrEmpty`. -/
def loadJSONOrEmpty (lib : Lib FS) (fs : FS) (path : String) : GoMap × Bool :=
  match loadJSON lib fs path with
  | .error _ => (some [], false)
  | .ok result => (result, true)

/-- The function `saveJSON`. -/
def saveJSON (lib : Lib FS) (fs : FS) (path : String) (data : GoMap) : FS × Option String :=
  match lib.MarshalIndent data with
  | .error err => (fs, some err)
  | .ok bytes => lib.WriteFile fs path bytes

/-- The function `promptForValue`. -/
def promptForValue (lib : Lib FS) (key : String) (templateValue : JVal) (w : World FS) :
    String × World FS :=
  let hint := if !templateValue.isNil then " [" ++ lib.Sprintv templateValue ++ "]" else ""
  let w1 := { w.print ("  " ++ key ++ hint ++ ": ") with prompts := w.prompts ++ [key] }
  let (line, w2) := w1.readString
  let value := TrimSpace line
  if value = "" ∧ !templateValue.isNil then
    match templateValue.asString with
    | some strVal => (strVal, w2)
    | none => (value, w2)
  else (value, w2)

/-- The value `envValue` of one iteration of the loop of `generateEnvMakeFile`. -/
def envValue (lib : Lib FS) (value : JVal) : String :=
  let v :=
    match value with
    | .str s => s
    | other => lib.Sprintv other
  ReplaceAll v "$" "$$"

/-- The string one iteration of the loop of `generateEnvMakeFile` appends. -/
def envLine (lib : Lib FS) (e : String × JVal) : String :=
  "export " ++ ToUpper lib e.1 ++ " := " ++ envValue lib e.2

/-- The slice `lines` of `generateEnvMakeFile` after the loop. -/
def envLines (lib : Lib FS) (config : GoMap) : List String :=
  "# Auto-generated  local-config.json - do not edit manually" ::
    (mapEntries config).map (envLine lib)

/-- The string `content` of `generateEnvMakeFile`. -/
def envContent (lib : Lib FS) (config : GoMap) : String :=
  stringsJoin (envLines lib config) "\n" ++ "\n"

/-- The function `generateEnvMakeFile`. -/
def generateEnvMakeFile (lib : Lib FS) (fs : FS) (config : GoMap) (envPath : String) :
    FS × Option String :=
  lib.WriteFile fs envPath (envContent lib config)

/-- The loop of the first-time branch of `ensureConfig`, over the keys still
to visit. -/
def setupLoop (lib : Lib FS) (template : GoMap) :
    List String → Doc → World FS → Doc × World FS
  | [], config, w => (config, w)
  | key :: rest, config, w =>
    let (v, w1) := promptForValue lib key (mapIndex template key) w
    setupLoop lib template rest (docSet config key (JVal.str v)) w1

/-- The first loop of the update branch of `ensureConfig`, over the template
keys still to visit; `Except.error` is the panic of an assignment to the nil
map, with the world at that point. -/
def addLoop (lib : Lib FS) (template : GoMap) :
    List String → GoMap → Bool → World FS → Except (World FS) (GoMap × Bool × World FS)
  | [], config, needsUpdate, w => .ok (config, needsUpdate, w)
  | key :: rest, config, needsUpdate, w =>
    match mapGet config key with
    | some _ => addLoop lib template rest config needsUpdate w
    | none =>
      let w1 := w.print ("🆕 New configuration key detected: " ++ key ++ "\n")
      let (v, w2) := promptForValue lib key (mapIndex template key) w1
      match mapAssign config key (JVal.str v) with
      | none => .error w2
      | some config1 => addLoop lib template rest config1 true w2

/-- The second loop of the update branch of `ensureConfig`, over the
configuration keys still to visit.  The body deletes only the key it is at, so
the keys to visit are those the map had when the loop began. -/
def removeLoop (template : GoMap) :
    List String → GoMap → Bool → World FS → GoMap × Bool × World FS
  | [], config, needsUpdate, w => (config, needsUpdate, w)
  | key :: rest, config, needsUpdate, w =>
    match mapGet template key with
    | some _ => removeLoop template rest config needsUpdate w
    | none =>
      removeLoop template rest (mapDelete config key) true
        (w.print ("🗑️Removing obsolete key :" ++ key ++ "\n"))

/-- How a call of `ensureConfig` ends: it returns (nil or an error), or the
goroutine panics. -/
inductive Outcome where
  | returned (err : Option String)
  | panicked (msg : String)

/-- A finished call of `ensureConfig`: how it ended, the world it left, and
the local variable `config` (`none` if control never reached its
declaration). -/
structure Run (FS : Type) where
  outcome : Outcome
  world : World FS
  config : Option GoMap

/-- The tail of `ensureConfig` from `saveJSON` on. -/
def persist (lib : Lib FS) (envPath : String) (config : GoMap) (w : World FS) : Run FS :=
  match saveJSON lib w.fs configFile config with
  | (fs1, some err) =>
    { outcome := .returned (some ("failed to save config: " ++ err)),
      world := { w with fs := fs1 }, config := some config }
  | (fs1, none) =>
    match generateEnvMakeFile lib fs1 config envPath with
    | (fs2, some err) =>
      { outcome := .returned (some ("failed to generate env makefile: " ++ err)),
        world := { w with fs := fs2 }, config := some config }
    | (fs2, none) =>
      { outcome := .returned none, world := { w with fs := fs2 }, config := some config }

/-- The function `ensureConfig`. -/
def ensureConfig (lib : Lib FS) (projectRoot : String) (w : World FS) : Run FS :=
  let templatePath := lib.Join projectRoot templateFile
  let configPath := lib.Join projectRoot configFile
  let envPath := lib.Join projectRoot envFile
  match loadJSON lib w.fs templatePath with
  | .error err =>
    { outcome := .returned (some ("failed to load template: " ++ err)),
      world := w, config := none }
  | .ok template =>
    match loadJSONOrEmpty lib w.fs configPath with
    | (_, false) =>
      let w1 := w.print "🔧 First time setup - please provide values for configuration:\n"
      let (config, w2) := setupLoop lib template (mapKeys template) [] w1
      persist lib envPath (some config) w2
    | (config, true) =>
      match addLoop lib template (mapKeys template) config false w with
      | .error w1 =>
        { outcome := .panicked "assignment to entry in nil map", world := w1,
          config := some config }
      | .ok (config1, needsUpdate1, w1) =>
        let (config2, needsUpdate2, w2) :=
          removeLoop template (mapKeys config1) config1 needsUpdate1 w1
        let w3 := if needsUpdate2 then w2.print "✅ Configuration updated\n" else w2
        persist lib envPath config2 w3

/-- A finished process: exit status, the world it left, and the arguments of
the calls of `ensureConfig` it made. -/
structure Exit (FS : Type) where
  code : Nat
  world : World FS
  calls : List String

/-- The function `main`, on the argument vector `os.Args`.  A panic ends the
process with status 2 after the run-time system reports it on standard error
(the goroutine trace is left out). -/
def main (lib : Lib FS) (args : List String) (w : World FS) : Exit FS :=
  if args.length < 3 then
    { code := 1, world := w.print "Usage: config-tool ensure [project-root]\n", calls := [] }
  else if args.getD 1 "" = "ensure" then
    let projectRoot := args.getD 2 ""
    let r := ensureConfig lib projectRoot w
    match r.outcome with
    | .returned (some err) =>
      { code := 1, world := r.world.eprint ("Error: " ++ err ++ "\n"), calls := [projectRoot] }
    | .returned none => { code := 0, world := r.world, calls := [projectRoot] }
    | .panicked msg =>
      { code := 2, world := r.world.eprint ("panic: " ++ msg ++ "\n"), calls := [projectRoot] }
  else
    { code := 1, world := w.print ("invalid command: \"" ++ args.getD 1 "" ++ "\""),
      calls := [] }

/-! ## A concrete library instance

`sampleLib` fixes the library on a file system that is a list of
(path, content) pairs, all paths relative to one working directory, without
links.  `filepath.Join` is modelled in full (Unix separators).  The JSON codec
is the fragment of `encoding/json` the examples below need: the decoder knows the
texts of `sampleTexts`, the encoder prints documents of plain strings. -/

/-- Split at every `/`. -/
def splitSlash : List Char → List (List Char)
  | [] => [[]]
  | c :: cs =>
    match splitSlash cs with
    | [] => [[c]]
    | e :: es => if c = '/' then [] :: e :: es else (c :: e) :: es

/-- The loop of `filepath.Clean` over the path elements still to read; `out`
holds the elements written so far, last one first. -/
def cleanLoop (rooted : Bool) : List (List Char) → List (List Char) → List (List Char)
  | [], out => out
  | e :: es, out =>
    if e = [] ∨ e = ['.'] then cleanLoop rooted es out
    else if e = ['.', '.'] then
      match out with
      | top :: below =>
        if top = ['.', '.'] then cleanLoop rooted es (e :: top :: below)
        else cleanLoop rooted es below
      | [] => if rooted then cleanLoop rooted es [] else cleanLoop rooted es [e]
    else cleanLoop rooted es (e :: out)

/-- The function `filepath.Clean`. -/
def Clean (path : String) : String :=
  if path = "" then "."
  else
    let rooted := startsWith ['/'] path.data
    let out := (cleanLoop rooted (splitSlash path.data) []).reverse
    let body := String.mk (List.intercalate ['/'] out)
    if rooted then "/" ++ body else if out = [] then "." else body

/-- The function `filepath.Join` on two elements. -/
def filepathJoin (a b : String) : String :=
  if a = "" then (if b = "" then "" else Clean b) else Clean (a ++ "/" ++ b)

/-- A file system: (path, content) pairs, the first pair of a path counts. -/
abbrev SampleFS := List (String × String)

/-- Read a file of a `SampleFS`. -/
def sampleRead (fs : SampleFS) (path : String) : Except String String :=
  match fs.find? (fun e => e.1 = path) with
  | some e => .ok e.2
  | none => .error ("open " ++ path ++ ": no such file or directory")

/-- Create or overwrite a file of a `SampleFS`. -/
def sampleWrite (fs : SampleFS) (path data : String) : SampleFS × Option String :=
  ((path, data) :: fs.filter (fun e => !decide (e.1 = path)), none)

/-- A template with one key that has a string default. -/
def templateA : String := "\x7b\"a\": \"x\"\x7d"

/-- A template with a string default and a number default. -/
def templateBob : String := "\x7b\"name\": \"Bob\", \"port\": 8080\x7d"

/-- A configuration with one key of `templateBob` and one key outside it. -/
def configAl : String := "\x7b\"name\": \"Al\", \"obsolete\": true\x7d"

/-- A configuration with a string value and a number value. -/
def configUrl : GoMap :=
  some [("apiUrl", JVal.str "http://x$y"), ("port", JVal.num 0x40BF900000000000)]

/-- A configuration whose two keys differ only by letter case. -/
def configCase : GoMap :=
  some [("a", JVal.str "1"), ("A", JVal.str "2")]

/-- A configuration whose value carries a second `export` line. -/
def configInject : GoMap :=
  some [("k", JVal.str "a\nexport INJECTED := 1")]

/-- A configuration with a line break in a value. -/
def configBreak : GoMap :=
  some [("k", JVal.str "a\nb")]

/-- JSON texts and the maps `json.Unmarshal` decodes them to. -/
def sampleTexts : List (String × GoMap) :=
  [ ("null", none),
    ("\x7b\x7d", some []),
    (templateA, some [("a", JVal.str "x")]),
    (templateBob, some [("name", JVal.str "Bob"), ("port", JVal.num 0x40BF900000000000)]),
    (configAl, some [("name", JVal.str "Al"), ("obsolete", JVal.bool true)]) ]

/-- The decoder of `sampleLib`. -/
def sampleUnmarshal (data : String) : Except String GoMap :=
  match sampleTexts.find? (fun e => e.1 = data) with
  | some e => .ok e.2
  | none => .error "invalid character"

/-- One entry of an indented document of plain strings. -/
def sampleEntry : String × JVal → Option String
  | (k, .str v) => some ("  \"" ++ k ++ "\": \"" ++ v ++ "\"")
  | _ => none

/-- The encoder of `sampleLib`: entries in list order, no escaping. -/
def sampleMarshal : GoMap → Except String String
  | none => .ok "null"
  | some [] => .ok "\x7b\x7d"
  | some (e :: es) =>
    match (e :: es).mapM sampleEntry with
    | some ls => .ok ("\x7b\n" ++ stringsJoin ls ",\n" ++ "\n\x7d")
    | none => .error "unsupported value"

/-- The `%v` verb on the values the examples print. -/
def sampleSprintv : JVal → String
  | .null => "<nil>"
  | .bool b => if b then "true" else "false"
  | .str s => s
  | .num bits => if bits = 0x40BF900000000000 then "8080" else "?"
  | _ => "?"

/-- A concrete library. -/
def sampleLib : Lib SampleFS where
  ReadFile := sampleRead
  WriteFile := sampleWrite
  Unmarshal := sampleUnmarshal
  MarshalIndent := sampleMarshal
  Join := filepathJoin
  upperTable := fun c => c
  Sprintv := sampleSprintv

/-- A world with the given files and input, nothing written yet. -/
def startWorld (fs : SampleFS) (stdin : List String) : World SampleFS :=
  { fs := fs, stdin := stdin, stdout := [], stderr := [], prompts := [] }

/-! ## Notions of the specification -/

/-- The text `v` with every `$` doubled and every other character kept. -/
def dollarDoubled (v : String) : String :=
  ⟨v.data.flatMap (fun c => if c = '$' then ['$', '$'] else [c])⟩

/-- The newline-terminated lines of a text, terminators dropped, and the
characters that follow the last newline. -/
def splitLines : List Char → List (List Char) × List Char
  | [] => ([], [])
  | c :: cs =>
    if c = '\n' then ([] :: (splitLines cs).1, (splitLines cs).2)
    else
      match (splitLines cs).1 with
      | [] => ([], c :: (splitLines cs).2)
      | l :: ls => ((c :: l) :: ls, (splitLines cs).2)

/-- The part of a line before the first occurrence of `sep`, if `sep` occurs. -/
def beforeSep (sep : List Char) : List Char → Option (List Char)
  | [] => if startsWith sep [] then some [] else none
  | c :: cs =>
    if startsWith sep (c :: cs) then some [] else (beforeSep sep cs).map (fun r => c :: r)

/-- The variable a line of a text assigns: for a line that begins with
`export ` and then holds ` := `, the characters between the two (up to the
first ` := `); for any other line none. -/
def assignedVar (line : List Char) : Option String :=
  if startsWith "export ".data line then
    (beforeSep " := ".data (line.drop "export ".length)).map String.mk
  else none

/-- The variables a text assigns, line by line; characters after the last
newline count as a line. -/
def assignedVars (text : String) : List String :=
  ((splitLines text.data).1 ++
    (if (splitLines text.data).2 = [] then [] else [(splitLines text.data).2])).filterMap
      assignedVar

/-! ## Prompting -/

/-- C3: `promptForValue` returns the trimmed input line when that is not empty;
on an empty trimmed line it returns the template value itself if that is a
string, and the empty string if it is null, a boolean, a number, an array or an
object.  Template value `"Bob"` with an empty line gives `"Bob"`, template value
`8080` with an empty line gives `""`. -/
theorem promptForValue_result (lib : Lib FS) (key : String) (v : JVal) (s : String)
    (w : World FS) :
    (promptForValue lib key v { w with stdin := s :: w.stdin }).1 =
        (if TrimSpace s ≠ "" then TrimSpace s
         else
          match v with
          | .str d => d
          | .null | .bool _ | .num _ | .arr _ | .obj _ => "")
      ∧ (promptForValue lib "name" (JVal.str "Bob") { w with stdin := "\n" :: w.stdin }).1 = "Bob"
      ∧ (promptForValue lib "port" (JVal.num 0x40BF900000000000)
          { w with stdin := "\n" :: w.stdin }).1 = "" := by
  refine ⟨?_, rfl, rfl⟩
  by_cases h : TrimSpace s = ""
  · cases v <;> simp [promptForValue, World.readString, World.print, h, JVal.isNil, JVal.asString]
  · simp [promptForValue, World.readString, World.print, h]

/-! ## The environment file -/

theorem replaceScan_dollar (l : List Char) :
    replaceScan ['$'] ['$', '$'] 0 l =
      l.flatMap (fun c => if c = '$' then ['$', '$'] else [c]) := by
  induction l with
  | nil => rfl
  | cons c cs ih =>
    by_cases h : c = '$'
    · subst h
      simp [replaceScan, startsWith, ih]
    · have h2 : ¬ ('$' = c) := fun e => h e.symm
      simp [replaceScan, startsWith, ih, h, h2]

/-- C4: the entry emitted for a key `k` with a string value `v` is
`export`, the upper-cased key, ` := `, and `v` with every `$` doubled; the
entry of the `i`-th key visited is line `i + 1` of the output; and the
configuration with `apiUrl` set to `http://x$y` gives the file
`export APIURL := http://x$$y` under the warning comment. -/
theorem envLine_string (lib : Lib FS) (config : GoMap) (k v : String) (i : Nat) :
    envLine lib (k, JVal.str v) = "export " ++ ToUpper lib k ++ " := " ++ dollarDoubled v
      ∧ (envLines lib config)[i + 1]? = ((mapEntries config)[i]?).map (envLine lib)
      ∧ envContent lib (some [("apiUrl", JVal.str "http://x$y")]) =
          "# Auto-generated  local-config.json - do not edit manually\n" ++
            "export APIURL := http://x$$y\n" := by
  refine ⟨?_, ?_, rfl⟩
  · simp [envLine, envValue, ReplaceAll, dollarDoubled]
    rw [replaceScan_dollar]
  · simp [envLines]

/-! ## The command line -/

/-- C9 (the code departs from the claim): for every argument vector with
fewer than two arguments after the program name, or whose first argument is
not `ensure`, `main` exits with status 1 without calling `ensureConfig` and
without touching a file, but its message goes to standard output, and standard
error stays as it was. -/
theorem main_usage_on_stdout (lib : Lib FS) (args : List String) (w : World FS)
    (h : args.length < 3 ∨ args.getD 1 "" ≠ "ensure") :
    main lib args w =
      { code := 1, calls := [],
        world :=
          { w with
            stdout := w.stdout ++
              [if args.length < 3 then "Usage: config-tool ensure [project-root]\n"
               else "invalid command: \"" ++ args.getD 1 "" ++ "\""] } } := by
  by_cases hlen : args.length < 3
  · simp [main, hlen, World.print]
  · have hne : args.getD 1 "" ≠ "ensure" := h.resolve_left hlen
    simp only [main, hlen, if_false, hne, World.print]

/-- Three argument vectors of C9: no argument, one argument, and a command
other than `ensure`. -/
theorem main_usage_on_stdout_witness :
    (["config-tool"].length < 3 ∨ ["config-tool"].getD 1 "" ≠ "ensure")
      ∧ main sampleLib ["config-tool"] (startWorld [] []) =
          { code := 1, calls := [],
            world := { startWorld [] [] with
              stdout := ["Usage: config-tool ensure [project-root]\n"], stderr := [] } }
      ∧ main sampleLib ["config-tool", "ensure"] (startWorld [] []) =
          { code := 1, calls := [],
            world := { startWorld [] [] with
              stdout := ["Usage: config-tool ensure [project-root]\n"], stderr := [] } }
      ∧ main sampleLib ["config-tool", "build", "."] (startWorld [] []) =
          { code := 1, calls := [],
            world := { startWorld [] [] with
              stdout := ["invalid command: \"build\""], stderr := [] } } :=
  ⟨Or.inl (by decide),
    main_usage_on_stdout sampleLib ["config-tool"] (startWorld [] []) (Or.inl (by decide)),
    main_usage_on_stdout sampleLib ["config-tool", "ensure"] (startWorld [] [])
      (Or.inl (by decide)),
    main_usage_on_stdout sampleLib ["config-tool", "build", "."] (startWorld [] [])
      (Or.inr (by decide))⟩

/-! ## Loading the template -/

/-- C6 as stated fails: the template text `null` is not a JSON object, yet it
is decoded without error (to the nil map); the run returns nil, prints the
first-time notice and creates both the configuration file and the environment
file. -/
theorem ensureConfig_template_error_counterexample :
    sampleLib.ReadFile [("local-config.template.json", "null")]
        (sampleLib.Join "." templateFile) = .ok "null"
      ∧ sampleLib.Unmarshal "null" = .ok none
      ∧ ensureConfig sampleLib "." (startWorld [("local-config.template.json", "null")] []) =
        { outcome := .returned none,
          config := some (some []),
          world :=
            { fs := [ (".env.mk",
                        "# Auto-generated  local-config.json - do not edit manually\n"),
                      ("local-config.json", "\x7b\x7d"),
                      ("local-config.template.json", "null") ],
              stdin := [],
              stdout := ["🔧 First time setup - please provide values for configuration:\n"],
              stderr := [],
              prompts := [] } } :=
  ⟨rfl, rfl, rfl⟩

/-- C6, amended: when the template file cannot be read (it is missing, say), or
is read but `json.Unmarshal` reports an error on its content, `ensureConfig`
returns the error `failed to load template: ...` and leaves the world as it
found it: no file is created or rewritten, nothing is printed, no prompt is
issued and no input is consumed. -/
theorem ensureConfig_template_error (lib : Lib FS) (projectRoot err : String) (w : World FS)
    (h : lib.ReadFile w.fs (lib.Join projectRoot templateFile) = .error err
      ∨ ∃ data, lib.ReadFile w.fs (lib.Join projectRoot templateFile) = .ok data
          ∧ lib.Unmarshal data = .error err) :
    ensureConfig lib projectRoot w =
      { outcome := .returned (some ("failed to load template: " ++ err)),
        world := w, config := none } := by
  have hl : loadJSON lib w.fs (lib.Join projectRoot templateFile) = .error err := by
    rcases h with h | ⟨data, h1, h2⟩
    · simp [loadJSON, h]
    · simp [loadJSON, h1, h2]
  simp [ensureConfig, hl]

/-- A run of C6 on a project root without a template file. -/
theorem ensureConfig_template_error_witness :
    (sampleLib.ReadFile (startWorld [("proj/local-config.json", "null")] ["v\n"]).fs
          (sampleLib.Join "proj" templateFile)
        = .error "open proj/local-config.template.json: no such file or directory")
      ∧ ensureConfig sampleLib "proj" (startWorld [("proj/local-config.json", "null")] ["v\n"]) =
        { outcome := .returned (some ("failed to load template: " ++
            "open proj/local-config.template.json: no such file or directory")),
          world := startWorld [("proj/local-config.json", "null")] ["v\n"], config := none } :=
  ⟨rfl, ensureConfig_template_error sampleLib "proj" _ _ (Or.inl rfl)⟩

/-! ## Where the configuration is saved -/

/-- C5 (the code departs from the claim): with project root `proj`, a template
in it and no configuration, `ensureConfig` succeeds and writes the
configuration to `local-config.json` of the working directory; the
configuration path `proj/local-config.json`, which it loaded from, still has no
file, so the next run is a first-time setup again. -/
theorem ensureConfig_saves_outside_root :
    sampleLib.Join "proj" configFile = "proj/local-config.json"
      ∧ (ensureConfig sampleLib "proj"
          (startWorld [("proj/local-config.template.json", templateA)] ["v\n"])).outcome
        = .returned none
      ∧ (ensureConfig sampleLib "proj"
          (startWorld [("proj/local-config.template.json", templateA)] ["v\n"])).world.fs
        = [ ("proj/.env.mk",
              "# Auto-generated  local-config.json - do not edit manually\nexport A := v\n"),
            ("local-config.json", "\x7b\n  \"a\": \"v\"\n\x7d"),
            ("proj/local-config.template.json", templateA) ]
      ∧ (ensureConfig sampleLib "proj"
          (ensureConfig sampleLib "proj"
            (startWorld [("proj/local-config.template.json", templateA)]
              ["v\n", "w\n"])).world).world.prompts = ["a", "a"] :=
  ⟨rfl, rfl, rfl, rfl⟩

/-! ## The nil map -/

/-- C10 (the code departs from the claim): the configuration text `null` is
loaded without error as the nil map, and with a template that has a key the run
prompts for it and then panics on the assignment, before anything is saved. -/
theorem ensureConfig_panics_on_null :
    loadJSON sampleLib [("local-config.template.json", templateA), ("local-config.json", "null")]
        (sampleLib.Join "." configFile) = .ok none
      ∧ ensureConfig sampleLib "."
          (startWorld [("local-config.template.json", templateA), ("local-config.json", "null")]
            ["v\n"]) =
        { outcome := .panicked "assignment to entry in nil map",
          config := some none,
          world :=
            { fs := [("local-config.template.json", templateA), ("local-config.json", "null")],
              stdin := [],
              stdout := ["🆕 New configuration key detected: a\n", "  a [x]: "],
              stderr := [],
              prompts := ["a"] } }
      ∧ (main sampleLib ["config-tool", "ensure", "."]
          (startWorld [("local-config.template.json", templateA), ("local-config.json", "null")]
            ["v\n"])).code = 2 :=
  ⟨rfl, rfl, rfl⟩

/-! ## Lines and variables of the environment file -/

theorem stringsJoin_newline (l : String) (ls : List String) :
    (stringsJoin (l :: ls) "\n" ++ "\n").data =
      (l :: ls).flatMap (fun x => x.data ++ ['\n']) := by
  induction ls generalizing l with
  | nil => simp [stringsJoin]
  | cons b rest ih =>
    have := ih b
    simp only [String.data_append] at this
    simp [stringsJoin, String.data_append, this, List.append_assoc]

theorem splitLines_line (l rest : List Char) (h : '\n' ∉ l) :
    splitLines (l ++ '\n' :: rest) = (l :: (splitLines rest).1, (splitLines rest).2) := by
  induction l with
  | nil => simp [splitLines]
  | cons c cs ih =>
    have hc : c ≠ '\n' := fun e => h (by simp [e])
    have hcs : '\n' ∉ cs := fun e => h (by simp [e])
    simp [splitLines, hc, ih hcs]

theorem splitLines_lines (ls : List (List Char)) (h : ∀ l ∈ ls, '\n' ∉ l) :
    splitLines (ls.flatMap (fun x => x ++ ['\n'])) = (ls, []) := by
  induction ls with
  | nil => simp [splitLines]
  | cons l rest ih =>
    have h1 : '\n' ∉ l := h l (by simp)
    have h2 : ∀ x ∈ rest, '\n' ∉ x := fun x hx => h x (by simp [hx])
    simp [List.flatMap_cons, splitLines_line _ _ h1, ih h2]

theorem envContent_data (lib : Lib FS) (config : GoMap) :
    (envContent lib config).data =
      (envLines lib config).flatMap (fun l => l.data ++ ['\n']) := by
  unfold envContent envLines
  rw [stringsJoin_newline]

theorem splitLines_envContent (lib : Lib FS) (config : GoMap)
    (h : ∀ e ∈ mapEntries config,
      '\n' ∉ (ToUpper lib e.1).data ∧ '\n' ∉ (envValue lib e.2).data) :
    splitLines (envContent lib config).data = ((envLines lib config).map String.data, []) := by
  have hl : ∀ l ∈ (envLines lib config).map String.data, '\n' ∉ l := by
    intro l hl
    simp only [envLines, List.map_cons, List.mem_cons, List.mem_map] at hl
    rcases hl with rfl | ⟨s, ⟨e, he, rfl⟩, rfl⟩
    · decide
    · have := h e he
      simp [envLine, String.data_append, this.1, this.2]
  have := splitLines_lines _ hl
  rw [← this, envContent_data]
  simp [List.flatMap, List.map_map, Function.comp_def]

theorem startsWith_append (p rest : List Char) : startsWith p (p ++ rest) = true := by
  induction p with
  | nil => cases rest <;> rfl
  | cons c cs ih => simp [startsWith, ih]

theorem beforeSep_append (s0 : Char) (sep k rest : List Char) (h : s0 ∉ k) :
    beforeSep (s0 :: sep) (k ++ (s0 :: sep) ++ rest) = some k := by
  induction k with
  | nil =>
    have := startsWith_append (s0 :: sep) rest
    simp only [List.nil_append, List.cons_append] at this ⊢
    simp [beforeSep, this]
  | cons c cs ih =>
    have hc : ¬ (s0 = c) := fun e => h (by simp [e])
    have hcs : s0 ∉ cs := fun e => h (by simp [e])
    have := ih hcs
    simp only [List.cons_append, List.append_assoc] at this ⊢
    simp [beforeSep, startsWith, hc, this]

theorem assignedVar_envLine (lib : Lib FS) (e : String × JVal)
    (h : ' ' ∉ (ToUpper lib e.1).data) :
    assignedVar (envLine lib e).data = some (ToUpper lib e.1) := by
  have h1 : (envLine lib e).data =
      "export ".data ++ ((ToUpper lib e.1).data ++ " := ".data ++ (envValue lib e.2).data) := by
    simp [envLine, String.data_append, List.append_assoc]
  have h2 : startsWith "export ".data (envLine lib e).data = true := by
    rw [h1]; exact startsWith_append _ _
  have h3 : (envLine lib e).data.drop "export ".length =
      (ToUpper lib e.1).data ++ " := ".data ++ (envValue lib e.2).data := by
    rw [h1]
    exact List.drop_left' rfl
  have h4 := beforeSep_append ' ' [':', '=', ' '] (ToUpper lib e.1).data (envValue lib e.2).data h
  unfold assignedVar
  rw [h2, h3]
  simp only [if_true]
  change Option.map String.mk
    (beforeSep (' ' :: [':', '=', ' ']) ((ToUpper lib e.1).data ++ (' ' :: [':', '=', ' '])
      ++ (envValue lib e.2).data)) = _
  rw [h4]
  rfl

theorem filterMap_assignedVar (lib : Lib FS) (d : Doc)
    (h : ∀ e ∈ d, ' ' ∉ (ToUpper lib e.1).data) :
    (d.map (fun e => (envLine lib e).data)).filterMap assignedVar =
      d.map (fun e => ToUpper lib e.1) := by
  induction d with
  | nil => rfl
  | cons e rest ih =>
    have h1 := assignedVar_envLine lib e (h e (by simp))
    have h2 := ih (fun x hx => h x (by simp [hx]))
    simp only [List.map_cons, List.filterMap_cons, h1, h2]

theorem assignedVars_of_clean (lib : Lib FS) (config : GoMap)
    (h : ∀ e ∈ mapEntries config,
      ' ' ∉ (ToUpper lib e.1).data ∧ '\n' ∉ (ToUpper lib e.1).data
        ∧ '\n' ∉ (envValue lib e.2).data) :
    assignedVars (envContent lib config) = (mapKeys config).map (ToUpper lib) := by
  have hs := splitLines_envContent lib config (fun e he => ⟨(h e he).2.1, (h e he).2.2⟩)
  have hf := filterMap_assignedVar lib (mapEntries config) (fun e he => (h e he).1)
  have hh : assignedVar
      "# Auto-generated  local-config.json - do not edit manually".data = none := by decide
  unfold assignedVars
  rw [hs]
  simp only [if_true, List.append_nil, envLines, List.map_cons, List.filterMap_cons, hh,
    List.map_map, Function.comp_def]
  rw [hf]
  simp [mapKeys, List.map_map, Function.comp_def]

/-- C8 as stated fails: a document with the one key `k`, whose value is a
string with a line break in it, gives a text of three newline-terminated
lines, not two, and the third does not begin with `export `. -/
theorem envContent_lines_counterexample :
    (mapKeys configBreak).length = 1
      ∧ splitLines (envContent sampleLib configBreak).data =
          ([ "# Auto-generated  local-config.json - do not edit manually".data,
             "export K := a".data, "b".data ], [])
      ∧ ¬ ((splitLines (envContent sampleLib configBreak).data).1.length
            = (mapKeys configBreak).length + 1) :=
  ⟨rfl, rfl, by decide⟩

/-- C8, amended: for every document with `n` keys the slice `lines` has
`n + 1` entries, the warning comment first and then one entry per key, each
beginning with `export `, and the text is these entries, each followed by a
newline; when no upper-cased key and no rendered value contains a line break,
the text consists of exactly these `n + 1` newline-terminated lines. -/
theorem envContent_lines (lib : Lib FS) (config : GoMap) :
    (envLines lib config).length = (mapKeys config).length + 1
      ∧ (envLines lib config).head? =
          some "# Auto-generated  local-config.json - do not edit manually"
      ∧ (∀ l ∈ (envLines lib config).tail, startsWith "export ".data l.data = true)
      ∧ (envContent lib config).data =
          (envLines lib config).flatMap (fun l => l.data ++ ['\n'])
      ∧ ((∀ e ∈ mapEntries config,
            '\n' ∉ (ToUpper lib e.1).data ∧ '\n' ∉ (envValue lib e.2).data) →
          splitLines (envContent lib config).data =
            ((envLines lib config).map String.data, [])) := by
  refine ⟨?_, ?_, ?_, envContent_data lib config, splitLines_envContent lib config⟩
  · simp [envLines, mapKeys]
  · simp [envLines]
  · intro l hl
    simp only [envLines, List.tail_cons, List.mem_map] at hl
    rcases hl with ⟨e, _, rfl⟩
    simp [envLine, String.data_append, startsWith]

/-- A document of C8 with a string and a number, neither with a line break:
its text is the comment and two `export` lines. -/
theorem envContent_lines_witness :
    (∀ e ∈ mapEntries configUrl,
        '\n' ∉ (ToUpper sampleLib e.1).data ∧ '\n' ∉ (envValue sampleLib e.2).data)
      ∧ splitLines (envContent sampleLib configUrl).data =
          ([ "# Auto-generated  local-config.json - do not edit manually".data,
             "export APIURL := http://x$$y".data, "export PORT := 8080".data ], []) :=
  ⟨by decide, (envContent_lines sampleLib configUrl).2.2.2.2 (by decide)⟩

/-- C7 as stated fails: the keys `a` and `A` are distinct, the text assigns
the variable `A` twice, and so it has one variable for two keys; and a value
with a line break can make the text assign a variable that no key stands
for. -/
theorem assignedVars_counterexample :
    (mapKeys configCase).Nodup
      ∧ envContent sampleLib configCase =
          "# Auto-generated  local-config.json - do not edit manually\n" ++
            "export A := 1\nexport A := 2\n"
      ∧ assignedVars (envContent sampleLib configCase) = ["A", "A"]
      ∧ ¬ ((assignedVars (envContent sampleLib configCase)).toFinset.card
            = (mapKeys configCase).length)
      ∧ mapKeys configInject = ["k"]
      ∧ assignedVars (envContent sampleLib configInject) = ["K", "INJECTED"] :=
  ⟨by decide, rfl, rfl, by decide, rfl, rfl⟩

/-- C7, amended: for every document the text is the warning comment and then,
per key in visiting order, the line `export`, the upper-cased key, ` := `, the
rendered value.  When no upper-cased key contains a space or a line break and
no rendered value contains a line break, the variables the text assigns are
exactly the upper-cased keys, one per key in visiting order; when moreover
upper-casing is one-to-one on the keys of the document (no two keys differ only
by letter case), the number of distinct variables is the number of distinct
keys, and no variable is assigned twice if no key occurs twice. -/
theorem assignedVars_envContent (lib : Lib FS) (config : GoMap) :
    (envContent lib config).data =
        ("# Auto-generated  local-config.json - do not edit manually".data ++ ['\n']) ++
          (mapEntries config).flatMap (fun e =>
            ("export " ++ ToUpper lib e.1 ++ " := " ++ envValue lib e.2).data ++ ['\n'])
      ∧ ((∀ e ∈ mapEntries config,
            ' ' ∉ (ToUpper lib e.1).data ∧ '\n' ∉ (ToUpper lib e.1).data
              ∧ '\n' ∉ (envValue lib e.2).data) →
          assignedVars (envContent lib config) = (mapKeys config).map (ToUpper lib)
            ∧ ((∀ a ∈ mapKeys config, ∀ b ∈ mapKeys config,
                  ToUpper lib a = ToUpper lib b → a = b) →
                (assignedVars (envContent lib config)).toFinset.card
                    = (mapKeys config).toFinset.card
                  ∧ ((mapKeys config).Nodup →
                      (assignedVars (envContent lib config)).Nodup))) := by
  refine ⟨?_, fun h => ?_⟩
  · rw [envContent_data]
    simp [envLines, envLine, List.flatMap, List.map_map, Function.comp_def]
  · have hv := assignedVars_of_clean lib config h
    refine ⟨hv, fun hinj => ⟨?_, fun hk => ?_⟩⟩
    · have himg : ((mapKeys config).map (ToUpper lib)).toFinset =
          (mapKeys config).toFinset.image (ToUpper lib) := by
        ext x; simp
      rw [hv, himg]
      apply Finset.card_image_of_injOn
      intro a ha b hb hab
      exact hinj a (by simpa using ha) b (by simpa using hb) hab
    · rw [hv]
      exact List.Nodup.map_on hinj hk

/-- A document of C7 whose two keys stay apart when upper-cased: the text
assigns `APIURL` and `PORT`. -/
theorem assignedVars_envContent_witness :
    (∀ e ∈ mapEntries configUrl,
        ' ' ∉ (ToUpper sampleLib e.1).data ∧ '\n' ∉ (ToUpper sampleLib e.1).data
          ∧ '\n' ∉ (envValue sampleLib e.2).data)
      ∧ (∀ a ∈ mapKeys configUrl, ∀ b ∈ mapKeys configUrl,
          ToUpper sampleLib a = ToUpper sampleLib b → a = b)
      ∧ (mapKeys configUrl).Nodup
      ∧ assignedVars (envContent sampleLib configUrl) = ["APIURL", "PORT"]
      ∧ (assignedVars (envContent sampleLib configUrl)).toFinset.card
          = (mapKeys configUrl).toFinset.card
      ∧ (assignedVars (envContent sampleLib configUrl)).Nodup :=
  ⟨by decide, by decide, by decide,
    ((assignedVars_envContent sampleLib configUrl).2 (by decide)).1,
    (((assignedVars_envContent sampleLib configUrl).2 (by decide)).2 (by decide)).1,
    (((assignedVars_envContent sampleLib configUrl).2 (by decide)).2 (by decide)).2
      (by decide)⟩

/-! ## Reconciliation -/

theorem docGet_eq_none_iff (d : Doc) (k : String) :
    docGet d k = none ↔ k ∉ d.map Prod.fst := by
  induction d with
  | nil => simp [docGet]
  | cons e rest ih =>
    obtain ⟨a, x⟩ := e
    by_cases h : a = k
    · simp [docGet, h]
    · have h2 : ¬ k = a := fun e => h e.symm
      simp [docGet, h, h2, ih]

theorem mem_keys_docSet (d : Doc) (key k : String) (v : JVal) :
    k ∈ (docSet d key v).map Prod.fst ↔ k ∈ d.map Prod.fst ∨ k = key := by
  induction d with
  | nil => simp [docSet]
  | cons e rest ih =>
    obtain ⟨a, x⟩ := e
    by_cases h : a = key
    · subst h
      simp only [docSet, if_true, List.map_cons, List.mem_cons]
      tauto
    · simp only [docSet, h, if_false, List.map_cons, List.mem_cons, ih]
      tauto

theorem docGet_docSet_ne (d : Doc) (key k : String) (v : JVal) (h : key ≠ k) :
    docGet (docSet d key v) k = docGet d k := by
  induction d with
  | nil => simp [docSet, docGet, h]
  | cons e rest ih =>
    obtain ⟨a, x⟩ := e
    by_cases h1 : a = key
    · subst h1; simp [docSet, docGet, h]
    · by_cases h2 : a = k
      · subst h2; simp [docSet, docGet, h1]
      · simp [docSet, docGet, h1, h2, ih]

theorem mem_keys_filter (d : Doc) (key k : String) :
    k ∈ (d.filter (fun e => !decide (e.1 = key))).map Prod.fst ↔
      k ∈ d.map Prod.fst ∧ k ≠ key := by
  simp only [List.mem_map, List.mem_filter]
  constructor
  · rintro ⟨e, ⟨he, hne⟩, rfl⟩
    exact ⟨⟨e, he, rfl⟩, by simpa using hne⟩
  · rintro ⟨⟨e, he, rfl⟩, hne⟩
    exact ⟨e, ⟨he, by simpa using hne⟩, rfl⟩

theorem docGet_filter_ne (d : Doc) (key k : String) (h : key ≠ k) :
    docGet (d.filter (fun e => !decide (e.1 = key))) k = docGet d k := by
  induction d with
  | nil => rfl
  | cons e rest ih =>
    obtain ⟨a, x⟩ := e
    by_cases h1 : a = key
    · subst h1
      simp [List.filter, docGet, h, ih]
    · by_cases h2 : a = k
      · subst h2; simp [List.filter, docGet, h1]
      · simp [List.filter, docGet, h1, h2, ih]

theorem promptForValue_prompts (lib : Lib FS) (key : String) (v : JVal) (w : World FS) :
    (promptForValue lib key v w).2.prompts = w.prompts ++ [key] := by
  unfold promptForValue
  cases hs : w.stdin <;> simp only [World.readString, World.print, hs] <;> split <;>
    (try split) <;> rfl

theorem setupLoop_keys (lib : Lib FS) (T : GoMap) (ks : List String) (config : Doc)
    (w : World FS) (k : String) :
    k ∈ (setupLoop lib T ks config w).1.map Prod.fst ↔ k ∈ config.map Prod.fst ∨ k ∈ ks := by
  induction ks generalizing config w with
  | nil => simp [setupLoop]
  | cons key rest ih =>
    simp only [setupLoop, ih, mem_keys_docSet, List.mem_cons]
    tauto

theorem addLoop_some (lib : Lib FS) (T : GoMap) (ks : List String) (C : Doc) (nu : Bool)
    (w : World FS) :
    ∃ (C1 : Doc) (nu1 : Bool) (w1 : World FS) (ps : List String),
      addLoop lib T ks (some C) nu w = .ok (some C1, nu1, w1)
        ∧ (∀ k, k ∈ C1.map Prod.fst ↔ k ∈ C.map Prod.fst ∨ k ∈ ks)
        ∧ (∀ k v, docGet C k = some v → docGet C1 k = some v)
        ∧ w1.prompts = w.prompts ++ ps
        ∧ ∀ k ∈ ps, docGet C k = none := by
  induction ks generalizing C nu w with
  | nil => exact ⟨C, nu, w, [], rfl, by simp, fun _ _ h => h, by simp, by simp⟩
  | cons key rest ih =>
    cases hg : docGet C key with
    | some x =>
      obtain ⟨C1, nu1, w1, ps, h1, h2, h3, h4, h5⟩ := ih C nu w
      refine ⟨C1, nu1, w1, ps, ?_, ?_, h3, h4, h5⟩
      · simp [addLoop, mapGet, mapEntries, hg, h1]
      · intro k
        have hk : key ∈ C.map Prod.fst := by
          by_contra hc
          rw [(docGet_eq_none_iff C key).mpr hc] at hg
          cases hg
        rw [h2 k, List.mem_cons]
        constructor
        · rintro (h | h)
          · exact Or.inl h
          · exact Or.inr (Or.inr h)
        · rintro (h | h | h)
          · exact Or.inl h
          · exact Or.inl (h ▸ hk)
          · exact Or.inr h
    | none =>
      obtain ⟨C1, nu1, w1, ps, h1, h2, h3, h4, h5⟩ :=
        ih (docSet C key (JVal.str
              (promptForValue lib key (mapIndex T key)
                (w.print ("🆕 New configuration key detected: " ++ key ++ "\n"))).1))
          true
          (promptForValue lib key (mapIndex T key)
            (w.print ("🆕 New configuration key detected: " ++ key ++ "\n"))).2
      refine ⟨C1, nu1, w1, key :: ps, ?_, ?_, ?_, ?_, ?_⟩
      · simp [addLoop, mapGet, mapEntries, hg, mapAssign, h1]
      · intro k
        rw [h2 k, mem_keys_docSet, List.mem_cons]
        tauto
      · intro k v hv
        apply h3
        have hne : key ≠ k := by
          intro e
          rw [e] at hg
          rw [hg] at hv
          cases hv
        rw [docGet_docSet_ne _ _ _ _ hne]
        exact hv
      · rw [h4, promptForValue_prompts]
        simp [World.print]
      · intro k hk
        rcases List.mem_cons.mp hk with rfl | hk
        · exact hg
        · have := h5 k hk
          rw [docGet_eq_none_iff] at this ⊢
          intro hc
          exact this ((mem_keys_docSet _ _ _ _).mpr (Or.inl hc))

theorem removeLoop_some (T : GoMap) (ks : List String) (C : Doc) (nu : Bool) (w : World FS) :
    ∃ (C1 : Doc) (nu1 : Bool) (w1 : World FS),
      removeLoop T ks (some C) nu w = (some C1, nu1, w1)
        ∧ w1.prompts = w.prompts
        ∧ (∀ k, k ∈ C1.map Prod.fst ↔ k ∈ C.map Prod.fst ∧ (k ∈ ks → k ∈ mapKeys T))
        ∧ ∀ k, k ∈ mapKeys T → docGet C1 k = docGet C k := by
  induction ks generalizing C nu w with
  | nil => exact ⟨C, nu, w, rfl, rfl, by simp, fun _ _ => rfl⟩
  | cons key rest ih =>
    cases hg : docGet (mapEntries T) key with
    | some x =>
      have hk : key ∈ mapKeys T := by
        by_contra hc
        rw [(docGet_eq_none_iff _ key).mpr hc] at hg
        cases hg
      obtain ⟨C1, nu1, w1, h1, h2, h3, h4⟩ := ih C nu w
      refine ⟨C1, nu1, w1, ?_, h2, ?_, h4⟩
      · simp [removeLoop, mapGet, hg, h1]
      · intro k
        rw [h3 k]
        constructor
        · rintro ⟨ha, hb⟩
          refine ⟨ha, fun hm => ?_⟩
          rcases List.mem_cons.mp hm with rfl | hm
          · exact hk
          · exact hb hm
        · rintro ⟨ha, hb⟩
          exact ⟨ha, fun hm => hb (List.mem_cons_of_mem _ hm)⟩
    | none =>
      have hk : key ∉ mapKeys T := (docGet_eq_none_iff _ key).mp hg
      obtain ⟨C1, nu1, w1, h1, h2, h3, h4⟩ :=
        ih (C.filter (fun e => !decide (e.1 = key))) true
          (w.print ("🗑️Removing obsolete key :" ++ key ++ "\n"))
      refine ⟨C1, nu1, w1, ?_, ?_, ?_, ?_⟩
      · simp [removeLoop, mapGet, hg, mapDelete, h1]
      · rw [h2]; rfl
      · intro k
        rw [h3 k, mem_keys_filter]
        constructor
        · rintro ⟨⟨ha, hne⟩, hb⟩
          refine ⟨ha, fun hm => ?_⟩
          rcases List.mem_cons.mp hm with rfl | hm
          · exact absurd rfl hne
          · exact hb hm
        · rintro ⟨ha, hb⟩
          refine ⟨⟨ha, ?_⟩, fun hm => hb (List.mem_cons_of_mem _ hm)⟩
          intro e
          exact hk (e ▸ hb (e ▸ List.mem_cons_self _ _))
      · intro k hkT
        rw [h4 k hkT]
        apply docGet_filter_ne
        intro e
        exact hk (e ▸ hkT)

theorem persist_config (lib : Lib FS) (envPath : String) (config : GoMap) (w : World FS) :
    (persist lib envPath config w).config = some config
      ∧ (persist lib envPath config w).world.prompts = w.prompts := by
  unfold persist
  split
  · exact ⟨rfl, rfl⟩
  · split <;> exact ⟨rfl, rfl⟩

/-- C1: when the template loads as `T`, and the configuration file is absent,
unreadable, undecodable, or decodes to an object, then for every input the
run reaches the end of the reconciliation and the configuration document it
holds there has exactly the keys of `T`. -/
theorem ensureConfig_keys (lib : Lib FS) (projectRoot : String) (w : World FS) (T : GoMap)
    (hT : loadJSON lib w.fs (lib.Join projectRoot templateFile) = .ok T)
    (hC : (∃ err, loadJSON lib w.fs (lib.Join projectRoot configFile) = .error err)
      ∨ ∃ C : Doc, loadJSON lib w.fs (lib.Join projectRoot configFile) = .ok (some C)) :
    ∃ doc : Doc, (ensureConfig lib projectRoot w).config = some (some doc)
      ∧ ∀ k, k ∈ mapKeys (some doc) ↔ k ∈ mapKeys T := by
  rcases hC with ⟨err, hC⟩ | ⟨C, hC⟩
  · refine ⟨(setupLoop lib T (mapKeys T) []
      (w.print "🔧 First time setup - please provide values for configuration:\n")).1, ?_, ?_⟩
    · simp only [ensureConfig, hT, loadJSONOrEmpty, hC]
      exact (persist_config _ _ _ _).1
    · intro k
      have := setupLoop_keys lib T (mapKeys T) []
        (w.print "🔧 First time setup - please provide values for configuration:\n") k
      simpa [mapKeys, mapEntries] using this
  · obtain ⟨C1, nu1, w1, ps, h1, h2, h3, h4, h5⟩ := addLoop_some lib T (mapKeys T) C false w
    obtain ⟨C2, nu2, w2, g1, g2, g3, g4⟩ := removeLoop_some T (mapKeys (some C1)) C1 nu1 w1
    refine ⟨C2, ?_, ?_⟩
    · simp only [ensureConfig, hT, loadJSONOrEmpty, hC, h1, g1]
      exact (persist_config _ _ _ _).1
    · intro k
      simp only [mapKeys, mapEntries] at g3 ⊢
      rw [g3 k, h2 k]
      simp only [mapKeys]
      tauto

/-- C2: when the configuration file decodes to an object `C`, the run takes
the update branch and every key of `C` that is also a key of the template has,
in the resulting document, the value it had in `C`, whatever the template holds
for it; and no prompt of the run is for such a key. -/
theorem ensureConfig_keeps (lib : Lib FS) (projectRoot : String) (w : World FS) (T : GoMap)
    (C : Doc)
    (hT : loadJSON lib w.fs (lib.Join projectRoot templateFile) = .ok T)
    (hC : loadJSON lib w.fs (lib.Join projectRoot configFile) = .ok (some C)) :
    ∃ (doc : Doc) (ps : List String),
      (ensureConfig lib projectRoot w).config = some (some doc)
        ∧ (ensureConfig lib projectRoot w).world.prompts = w.prompts ++ ps
        ∧ ∀ k v, docGet C k = some v → k ∈ mapKeys T → docGet doc k = some v ∧ k ∉ ps := by
  obtain ⟨C1, nu1, w1, ps, h1, h2, h3, h4, h5⟩ := addLoop_some lib T (mapKeys T) C false w
  obtain ⟨C2, nu2, w2, g1, g2, g3, g4⟩ := removeLoop_some T (mapKeys (some C1)) C1 nu1 w1
  refine ⟨C2, ps, ?_, ?_, ?_⟩
  · simp only [ensureConfig, hT, loadJSONOrEmpty, hC, h1, g1]
    exact (persist_config _ _ _ _).1
  · simp only [ensureConfig, hT, loadJSONOrEmpty, hC, h1, g1]
    rw [(persist_config _ _ _ _).2, ← h4, ← g2]
    split <;> rfl
  · intro k v hv hk
    refine ⟨?_, ?_⟩
    · rw [g4 k hk]; exact h3 k v hv
    · intro hp
      rw [h5 k hp] at hv
      cases hv

/-- A first run of C1: a template with two keys, no configuration file. -/
theorem ensureConfig_keys_witness :
    loadJSON sampleLib (startWorld [("local-config.template.json", templateBob)] ["\n", "\n"]).fs
        (sampleLib.Join "." templateFile)
        = .ok (some [("name", JVal.str "Bob"), ("port", JVal.num 0x40BF900000000000)])
      ∧ ((∃ err, loadJSON sampleLib
            (startWorld [("local-config.template.json", templateBob)] ["\n", "\n"]).fs
            (sampleLib.Join "." configFile) = .error err)
          ∨ ∃ C : Doc, loadJSON sampleLib
            (startWorld [("local-config.template.json", templateBob)] ["\n", "\n"]).fs
            (sampleLib.Join "." configFile) = .ok (some C))
      ∧ ∃ doc : Doc,
          (ensureConfig sampleLib "."
            (startWorld [("local-config.template.json", templateBob)] ["\n", "\n"])).config
            = some (some doc)
          ∧ ∀ k, k ∈ mapKeys (some doc) ↔
              k ∈ mapKeys (some [("name", JVal.str "Bob"), ("port", JVal.num 0x40BF900000000000)]) :=
  ⟨rfl, Or.inl ⟨_, rfl⟩, ensureConfig_keys sampleLib "." _ _ rfl (Or.inl ⟨_, rfl⟩)⟩

/-- An update run of C2: the key `name` is in both documents, `port` is new
and `obsolete` is gone from the template. -/
theorem ensureConfig_keeps_witness :
    loadJSON sampleLib
        (startWorld [("local-config.template.json", templateBob),
          ("local-config.json", configAl)] ["9090\n"]).fs
        (sampleLib.Join "." templateFile)
        = .ok (some [("name", JVal.str "Bob"), ("port", JVal.num 0x40BF900000000000)])
      ∧ loadJSON sampleLib
        (startWorld [("local-config.template.json", templateBob),
          ("local-config.json", configAl)] ["9090\n"]).fs
        (sampleLib.Join "." configFile)
        = .ok (some [("name", JVal.str "Al"), ("obsolete", JVal.bool true)])
      ∧ ∃ (doc : Doc) (ps : List String),
          (ensureConfig sampleLib "."
            (startWorld [("local-config.template.json", templateBob),
              ("local-config.json", configAl)] ["9090\n"])).config = some (some doc)
          ∧ (ensureConfig sampleLib "."
            (startWorld [("local-config.template.json", templateBob),
              ("local-config.json", configAl)] ["9090\n"])).world.prompts
            = (startWorld [("local-config.template.json", templateBob),
              ("local-config.json", configAl)] ["9090\n"]).prompts ++ ps
          ∧ ∀ k v, docGet [("name", JVal.str "Al"), ("obsolete", JVal.bool true)] k = some v →
              k ∈ mapKeys (some [("name", JVal.str "Bob"), ("port", JVal.num 0x40BF900000000000)]) →
              docGet doc k = some v ∧ k ∉ ps :=
  ⟨rfl, rfl, ensureConfig_keeps sampleLib "." _ _ _ rfl rfl⟩

end GoMakeUtils
